import Mathlib

/-!
Shallow embedding of the invoice-builder core (`App.tsx` and
`InvoicePreview.tsx`): the totals calculator, the bounded undo history, the
item validator and the state-store mutation operations, together with the
startup-initialization control flow.

JavaScript numbers are modelled by `JsNum`: either `NaN` or a rational.
`Number.parseFloat(String(x)) || 0`, `Number.parseInt(String(x)) || 1` and
`x || 0` are modelled exactly on finite numbers and `NaN`; the
exponent-notation corner of `String` for extreme magnitudes is out of scope.
-/

/-- A JavaScript number: `NaN` or a finite value (modelled as a rational). -/
inductive JsNum where
  | nan : JsNum
  | num (q : ℚ) : JsNum
deriving DecidableEq

/-- Truncation toward zero, as `Number.parseInt(String(q))` performs on a
finite numeric argument. -/
def jsTrunc (q : ℚ) : ℤ :=
  if 0 ≤ q then ⌊q⌋ else ⌈q⌉

/-- `Number.parseFloat(String(v)) || 0`: `NaN` (and `0` itself) collapse
to `0`. -/
def parseFloatOr0 (v : JsNum) : ℚ :=
  match v with
  | .nan => 0
  | .num q => q

/-- `Number.parseInt(String(v)) || 1`: a `NaN` parse result and a truncated
value of `0` (both falsy) collapse to `1`. -/
def parseIntOr1 (v : JsNum) : ℚ :=
  match v with
  | .nan => 1
  | .num q => if jsTrunc q = 0 then 1 else (jsTrunc q : ℚ)

/-- `v || 0`, as applied to the tax and discount percentages. -/
def orZero (v : JsNum) : ℚ :=
  match v with
  | .nan => 0
  | .num q => q

/-- JavaScript `<` on a possibly-`NaN` left operand: `NaN < c` is `false`. -/
def jsLt (v : JsNum) (c : ℚ) : Bool :=
  match v with
  | .nan => false
  | .num q => decide (q < c)

/-- One invoice line item, as held in React state. -/
structure Item where
  description : String
  quantity : JsNum
  price : JsNum
deriving DecidableEq

/-- The default empty item `{ description: "", quantity: 1, price: 0 }`. -/
def emptyItem : Item :=
  { description := "", quantity := .num 1, price := .num 0 }

/-- The result record of `calcTotals`. -/
structure Totals where
  subtotal : ℚ
  taxValue : ℚ
  discountValue : ℚ
  total : ℚ
deriving DecidableEq

/-- The per-item term of the `reduce` in `calcTotals`:
`(Number.parseFloat(String(item.price)) || 0) *
 (Number.parseInt(String(item.quantity)) || 1)`. -/
def itemTerm (it : Item) : ℚ :=
  parseFloatOr0 it.price * parseIntOr1 it.quantity

/-- `calcTotals(items, tax, discount)` from `App.tsx`. -/
def calcTotals (items : List Item) (tax discount : JsNum) : Totals :=
  let subtotal := items.foldl (fun sum it => sum + itemTerm it) 0
  let taxValue := orZero tax / 100 * subtotal
  let discountValue := orZero discount / 100 * subtotal
  let total := subtotal + taxValue - discountValue
  { subtotal := subtotal, taxValue := taxValue
    discountValue := discountValue, total := total }

/-- The per-row total rendered by `InvoicePreview`:
`(parseFloat(String(item.price)) || 0) * (parseInt(String(item.quantity)) || 1)`. -/
def rowTotal (it : Item) : ℚ :=
  parseFloatOr0 it.price * parseIntOr1 it.quantity

lemma foldl_itemTerm_eq_sum (l : List Item) (a : ℚ) :
    l.foldl (fun sum it => sum + itemTerm it) a = a + (l.map itemTerm).sum := by
  induction l generalizing a with
  | nil => simp
  | cons x xs ih => simp [List.foldl_cons, ih (a + itemTerm x), add_assoc]

lemma calcTotals_subtotal (items : List Item) (tax discount : JsNum) :
    (calcTotals items tax discount).subtotal = (items.map itemTerm).sum := by
  simp [calcTotals, foldl_itemTerm_eq_sum]

lemma jsTrunc_intCast (n : ℤ) : jsTrunc (n : ℚ) = n := by
  unfold jsTrunc
  split <;> simp

lemma parseIntOr1_int (n : ℤ) (hn : n ≠ 0) : parseIntOr1 (.num (n : ℚ)) = (n : ℚ) := by
  simp [parseIntOr1, jsTrunc_intCast, hn]

/-- C1: with numeric prices `p ≥ 0` and integer quantities `q ≥ 1`,
`calcTotals` returns `subtotal = Σ (p * q)`,
`taxValue = tax / 100 * subtotal`, `discountValue = discount / 100 * subtotal`
and `total = subtotal + taxValue - discountValue`; in particular the
scenario `items = [(\x7bdesc "A", qty 2, price 10\x7d)]`, `tax = 10`,
`discount = 5` yields `subtotal = 20`, `taxValue = 2`, `discountValue = 1`,
`total = 21`. -/
theorem calcTotals_correct (l : List (String × ℤ × ℚ)) (tax discount : ℚ)
    (hq : ∀ x ∈ l, 1 ≤ x.2.1) (hp : ∀ x ∈ l, 0 ≤ x.2.2) :
    calcTotals (l.map fun x => ⟨x.1, .num (x.2.1 : ℚ), .num x.2.2⟩)
        (.num tax) (.num discount) =
      { subtotal := (l.map fun x => x.2.2 * (x.2.1 : ℚ)).sum
        taxValue := tax / 100 * (l.map fun x => x.2.2 * (x.2.1 : ℚ)).sum
        discountValue := discount / 100 * (l.map fun x => x.2.2 * (x.2.1 : ℚ)).sum
        total := (l.map fun x => x.2.2 * (x.2.1 : ℚ)).sum
          + tax / 100 * (l.map fun x => x.2.2 * (x.2.1 : ℚ)).sum
          - discount / 100 * (l.map fun x => x.2.2 * (x.2.1 : ℚ)).sum } ∧
    calcTotals [⟨"A", .num 2, .num 10⟩] (.num 10) (.num 5) =
      { subtotal := 20, taxValue := 2, discountValue := 1, total := 21 } := by
  constructor
  · have hmap : ((l.map fun x => (⟨x.1, .num (x.2.1 : ℚ), .num x.2.2⟩ : Item)).map itemTerm)
        = l.map fun x => x.2.2 * (x.2.1 : ℚ) := by
      rw [List.map_map]
      refine List.map_congr_left ?_
      intro x hx
      have h1 : (1 : ℤ) ≤ x.2.1 := hq x hx
      have hne : x.2.1 ≠ 0 := by omega
      simp [Function.comp, itemTerm, parseFloatOr0, parseIntOr1_int _ hne]
    have hsub := calcTotals_subtotal
      (l.map fun x => ⟨x.1, .num (x.2.1 : ℚ), .num x.2.2⟩) (.num tax) (.num discount)
    rw [hmap] at hsub
    simp only [calcTotals] at hsub ⊢
    rw [foldl_itemTerm_eq_sum, hmap]
    simp [orZero]
  · norm_num [calcTotals, itemTerm, parseFloatOr0, parseIntOr1, jsTrunc, orZero]

/-- Closed instantiation of `calcTotals_correct` at the spec scenario. -/
theorem calcTotals_correct_witness :
    calcTotals [⟨"A", .num 2, .num 10⟩] (.num 10) (.num 5) =
      { subtotal := 20, taxValue := 2, discountValue := 1, total := 21 } :=
  (calcTotals_correct [("A", 2, 10)] 10 5 (by decide) (by decide)).2

/-! ## Application state and history -/

/-- One history snapshot: only `items`, `tax`, `discount` (the
`InvoiceHistory` interface of `App.tsx`). -/
structure Snapshot where
  items : List Item
  tax : JsNum
  discount : JsNum
deriving DecidableEq

/-- Fallback snapshot used to express out-of-bounds array reads. -/
def dfltSnap : Snapshot :=
  { items := [], tax := .num 0, discount := .num 0 }

/-- Fallback item used to express out-of-bounds array reads. -/
def dfltItem : Item := emptyItem

/-- The aggregate React state of `App`. The validation-error object is a
string-keyed partial map. -/
structure AppState where
  items : List Item
  tax : JsNum
  discount : JsNum
  currency : String
  title : String
  invoiceNumber : String
  date : String
  history : List Snapshot
  historyIndex : ℤ
  errors : String → Option String

/-- `history.slice(-n)`: the last `n` entries. -/
def lastN (n : Nat) (l : List Snapshot) : List Snapshot :=
  l.drop (l.length - n)

/-- The length cap applied when storing a freshly pushed history array. -/
def capHistory (l : List Snapshot) : List Snapshot :=
  if 50 < l.length then lastN 50 l else l

/-- `saveHistory(newItems, newTax, newDiscount)`: drop everything after the
cursor, push the snapshot, cap the stored array at 50 entries, and set the
cursor to `newHistory.length - 1` (of the uncapped array, as the code does). -/
def saveHistory (s : AppState) (ni : List Item) (nt nd : JsNum) : AppState :=
  let newHistory := s.history.take (s.historyIndex + 1).toNat
    ++ [{ items := ni, tax := nt, discount := nd }]
  { s with
    history := capHistory newHistory
    historyIndex := (newHistory.length : ℤ) - 1 }

/-- `undo()`: guarded by `historyIndex > 0`; restores
`history[historyIndex - 1]` into the live items/tax/discount. -/
def undo (s : AppState) : AppState :=
  if 0 < s.historyIndex then
    let prevState := s.history.getD (s.historyIndex - 1).toNat dfltSnap
    { s with
      historyIndex := s.historyIndex - 1
      items := prevState.items
      tax := prevState.tax
      discount := prevState.discount }
  else s

/-- `redo()`: guarded by `historyIndex < history.length - 1`; restores
`history[historyIndex + 1]`. -/
def redo (s : AppState) : AppState :=
  if s.historyIndex < (s.history.length : ℤ) - 1 then
    let nextState := s.history.getD (s.historyIndex + 1).toNat dfltSnap
    { s with
      historyIndex := s.historyIndex + 1
      items := nextState.items
      tax := nextState.tax
      discount := nextState.discount }
  else s

/-! ## Validation errors and item mutation -/

/-- The error key `quantity-idx`. -/
def qkey (idx : Nat) : String := "quantity-" ++ toString idx

/-- The error key `price-idx`. -/
def pkey (idx : Nat) : String := "price-" ++ toString idx

/-- `newErrors[k] = v` on a copied error object. -/
def insertErr (m : String → Option String) (k v : String) : String → Option String :=
  fun x => if x = k then some v else m x

/-- `delete newErrors[k]` on a copied error object. -/
def deleteErr (m : String → Option String) (k : String) : String → Option String :=
  fun x => if x = k then none else m x

/-- An `updateItem` payload: which field is edited, carrying the string for
a description edit and the result of `Number(value)` for the numeric fields. -/
inductive FieldUpdate where
  | description (v : String)
  | quantity (v : JsNum)
  | price (v : JsNum)

/-- `updateItem(idx, field, value)`: write the field, recompute the two
error keys for this index (each `if` has an unconditional `else delete`
branch), and record history with the current tax and discount. -/
def updateItem (s : AppState) (idx : Nat) (f : FieldUpdate) : AppState :=
  let next :=
    match f with
    | .description v => s.items.set idx { s.items.getD idx dfltItem with description := v }
    | .quantity v => s.items.set idx { s.items.getD idx dfltItem with quantity := v }
    | .price v => s.items.set idx { s.items.getD idx dfltItem with price := v }
  let e1 :=
    match f with
    | .quantity v =>
      if jsLt v 1 then insertErr s.errors (qkey idx) "Quantity must be at least 1"
      else deleteErr s.errors (qkey idx)
    | _ => deleteErr s.errors (qkey idx)
  let e2 :=
    match f with
    | .price v =>
      if jsLt v 0 then insertErr e1 (pkey idx) "Price cannot be negative"
      else deleteErr e1 (pkey idx)
    | _ => deleteErr e1 (pkey idx)
  let s1 := saveHistory s next s.tax s.discount
  { s1 with items := next, errors := e2 }

/-- `addItem()`: append a copy of the empty item and record history. -/
def addItem (s : AppState) : AppState :=
  let newItems := s.items ++ [emptyItem]
  let s1 := saveHistory s newItems s.tax s.discount
  { s1 with items := newItems }

/-- `prev.filter((_, i) => i !== idx)`. -/
def filterNeIdx (l : List Item) (idx : Nat) : List Item :=
  (l.enum.filter (fun p => p.1 ≠ idx)).map Prod.snd

/-- `removeItem(idx)`: no-op when at most one item remains; otherwise filter
out the index, record history and delete this index's two error keys. -/
def removeItem (s : AppState) (idx : Nat) : AppState :=
  if s.items.length ≤ 1 then s
  else
    let newItems := filterNeIdx s.items idx
    let s1 := saveHistory s newItems s.tax s.discount
    { s1 with
      items := newItems
      errors := deleteErr (deleteErr s.errors (qkey idx)) (pkey idx) }

/-! ## History theorems -/

lemma length_capHistory_le (l : List Snapshot) : (capHistory l).length ≤ l.length := by
  unfold capHistory lastN
  split <;> simp

lemma saveHistory_history_eq (s : AppState) (ni : List Item) (nt nd : JsNum) :
    (saveHistory s ni nt nd).history
      = capHistory (s.history.take (s.historyIndex + 1).toNat
          ++ [{ items := ni, tax := nt, discount := nd }]) := rfl

lemma saveHistory_historyIndex_eq (s : AppState) (ni : List Item) (nt nd : JsNum) :
    (saveHistory s ni nt nd).historyIndex
      = ((s.history.take (s.historyIndex + 1).toNat
          ++ [({ items := ni, tax := nt, discount := nd } : Snapshot)]).length : ℤ) - 1 := rfl

/-- The built-in default state (before the startup effect runs). -/
def baseState : AppState :=
  { items := [emptyItem], tax := .num 0, discount := .num 0
    currency := "USD", title := "Invoice", invoiceNumber := "INV-001"
    date := "2025-01-01", history := [], historyIndex := -1
    errors := fun _ => none }

/-- A sample snapshot used for concrete instantiations. -/
def snapA : Snapshot :=
  { items := [emptyItem], tax := .num 1, discount := .num 0 }

/-- A second sample snapshot used for concrete instantiations. -/
def snapB : Snapshot :=
  { items := [emptyItem, emptyItem], tax := .num 1, discount := .num 0 }

/-- C4: `undo()` with cursor `≤ 0` and `redo()` with cursor `≥ length - 1`
leave the whole state unchanged; otherwise `undo()` decrements (`redo()`
increments) the cursor and replaces the live items, tax and discount with
the snapshot at the new cursor. -/
theorem undo_redo_spec (s : AppState) :
    (s.historyIndex ≤ 0 → undo s = s) ∧
    ((s.history.length : ℤ) - 1 ≤ s.historyIndex → redo s = s) ∧
    (0 < s.historyIndex →
      undo s = { s with
        historyIndex := s.historyIndex - 1
        items := (s.history.getD (s.historyIndex - 1).toNat dfltSnap).items
        tax := (s.history.getD (s.historyIndex - 1).toNat dfltSnap).tax
        discount := (s.history.getD (s.historyIndex - 1).toNat dfltSnap).discount }) ∧
    (s.historyIndex < (s.history.length : ℤ) - 1 →
      redo s = { s with
        historyIndex := s.historyIndex + 1
        items := (s.history.getD (s.historyIndex + 1).toNat dfltSnap).items
        tax := (s.history.getD (s.historyIndex + 1).toNat dfltSnap).tax
        discount := (s.history.getD (s.historyIndex + 1).toNat dfltSnap).discount }) := by
  refine ⟨?_, ?_, ?_, ?_⟩
  · intro h
    unfold undo
    rw [if_neg (by omega)]
  · intro h
    unfold redo
    rw [if_neg (by omega)]
  · intro h
    unfold undo
    rw [if_pos h]
  · intro h
    unfold redo
    rw [if_pos h]

/-- Closed instantiation of `undo_redo_spec`: the no-op cases at cursor `0`
and cursor `length - 1`, and the active cases on a two-snapshot history. -/
theorem undo_redo_spec_witness :
    (undo { baseState with history := [snapA], historyIndex := 0 }
      = { baseState with history := [snapA], historyIndex := 0 }) ∧
    (redo { baseState with history := [snapA], historyIndex := 0 }
      = { baseState with history := [snapA], historyIndex := 0 }) ∧
    (undo { baseState with history := [snapA, snapB], historyIndex := 1 }
      = { baseState with
          history := [snapA, snapB]
          historyIndex := 0
          items := snapA.items
          tax := snapA.tax
          discount := snapA.discount }) ∧
    (redo { baseState with history := [snapA, snapB], historyIndex := 0 }
      = { baseState with
          history := [snapA, snapB]
          historyIndex := 1
          items := snapB.items
          tax := snapB.tax
          discount := snapB.discount }) := by
  refine ⟨?_, ?_, ?_, ?_⟩
  · exact (undo_redo_spec _).1 (by decide)
  · exact (undo_redo_spec _).2.1 (by decide)
  · exact (undo_redo_spec _).2.2.1 (by decide)
  · exact (undo_redo_spec _).2.2.2 (by decide)

/-- C9: `undo()` and `redo()` leave currency, title, invoice number, date,
the history log and the validation errors unchanged, and the snapshot pushed
by `saveHistory` does not depend on currency, title, invoice number or date. -/
theorem undo_redo_frame (s : AppState) (ni : List Item) (nt nd : JsNum)
    (c ttl inv dt : String) :
    (undo s).currency = s.currency ∧ (undo s).title = s.title ∧
    (undo s).invoiceNumber = s.invoiceNumber ∧ (undo s).date = s.date ∧
    (undo s).history = s.history ∧ (undo s).errors = s.errors ∧
    (redo s).currency = s.currency ∧ (redo s).title = s.title ∧
    (redo s).invoiceNumber = s.invoiceNumber ∧ (redo s).date = s.date ∧
    (redo s).history = s.history ∧ (redo s).errors = s.errors ∧
    (saveHistory { s with currency := c, title := ttl, invoiceNumber := inv, date := dt }
        ni nt nd).history
      = (saveHistory s ni nt nd).history := by
  unfold undo redo saveHistory
  refine ⟨?_, ?_, ?_, ?_, ?_, ?_, ?_, ?_, ?_, ?_, ?_, ?_, ?_⟩ <;>
    (try split) <;> rfl

/-- C6: `saveHistory` keeps only the entries up to the cursor before
appending (the redo branch is dropped), and `redo()` immediately after a
`saveHistory` is a no-op. -/
theorem saveHistory_drops_redo (s : AppState) (ni : List Item) (nt nd : JsNum) :
    (saveHistory s ni nt nd).history
      = capHistory (s.history.take (s.historyIndex + 1).toNat
          ++ [{ items := ni, tax := nt, discount := nd }]) ∧
    redo (saveHistory s ni nt nd) = saveHistory s ni nt nd := by
  refine ⟨rfl, ?_⟩
  have hcap := length_capHistory_le
    (s.history.take (s.historyIndex + 1).toNat ++ [{ items := ni, tax := nt, discount := nd }])
  unfold redo
  rw [if_neg]
  rw [saveHistory_historyIndex_eq, saveHistory_history_eq]
  omega

/-! ## The 50-entry cap and the cursor -/

/-- `n` successive `saveHistory` calls, each recording snapshots with tax
percentages `k, k + 1, ...` so the snapshots are distinguishable. -/
def recSeq : Nat → Nat → AppState → AppState
  | 0, _, s => s
  | n + 1, k, s => recSeq n (k + 1) (saveHistory s [] (.num k) (.num 0))

set_option maxRecDepth 100000 in
/-- C2 (divergence witness): after 51 `saveHistory` calls on an initially
empty history, the stored log holds exactly the most recent 50 snapshots
(numbers 2..51), but the cursor is 50 — outside `[-1, length - 1] = [-1, 49]`
and not the index of the last recorded snapshot. -/
theorem saveHistory_cursor_overflow :
    (recSeq 51 1 baseState).history
      = (List.range 50).map
          (fun i => { items := [], tax := .num ((i + 2 : ℕ) : ℚ), discount := .num 0 }) ∧
    (recSeq 51 1 baseState).history.length = 50 ∧
    (recSeq 51 1 baseState).historyIndex = 50 ∧
    ((recSeq 51 1 baseState).history.length : ℤ) - 1 < (recSeq 51 1 baseState).historyIndex := by
  refine ⟨?_, by decide, by decide, by decide⟩
  decide

/-! ## Malformed numeric input (C8, C10) -/

/-- The substitution the spec describes: an unparseable price behaves as
`0`, an unparseable quantity as `1`. -/
def sanitizeItem (it : Item) : Item :=
  { it with
    price := match it.price with | .nan => .num 0 | v => v
    quantity := match it.quantity with | .nan => .num 1 | v => v }

lemma itemTerm_sanitize (it : Item) : itemTerm (sanitizeItem it) = itemTerm it := by
  rcases it with ⟨d, q, p⟩
  rcases q with _ | q <;> rcases p with _ | p <;>
    simp [sanitizeItem, itemTerm, parseFloatOr0, parseIntOr1, jsTrunc]

/-- C8: `calcTotals` silently substitutes price `0` and quantity `1` for
unparseable fields — it returns the same totals as on the sanitized items,
and it is total (no error is raised). -/
theorem calcTotals_sanitized (items : List Item) (tax discount : JsNum) :
    calcTotals items tax discount = calcTotals (items.map sanitizeItem) tax discount := by
  unfold calcTotals
  have h : (items.map sanitizeItem).foldl (fun sum it => sum + itemTerm it) 0
      = items.foldl (fun sum it => sum + itemTerm it) 0 := by
    rw [foldl_itemTerm_eq_sum, foldl_itemTerm_eq_sum, List.map_map]
    have : items.map (itemTerm ∘ sanitizeItem) = items.map itemTerm :=
      List.map_congr_left fun it _ => itemTerm_sanitize it
    rw [this]
  rw [h]

/-- C10: a quantity that parses to `0` or `NaN` contributes `price * 1` to
the subtotal (the `|| 1` default applies to every falsy parse result), a
`NaN` tax or discount percentage is treated as `0`, and the per-row total of
`InvoicePreview` applies exactly the same substitutions as the subtotal
term of `calcTotals`. -/
theorem falsy_quantity_and_nan_percent (d : String) (p t dc : JsNum)
    (items : List Item) (it : Item) :
    itemTerm { description := d, quantity := .num 0, price := p } = parseFloatOr0 p * 1 ∧
    itemTerm { description := d, quantity := .nan, price := p } = parseFloatOr0 p * 1 ∧
    (calcTotals [{ description := d, quantity := .num 0, price := p }] t dc).subtotal
      = parseFloatOr0 p * 1 ∧
    (calcTotals items .nan dc).taxValue = 0 ∧
    (calcTotals items t .nan).discountValue = 0 ∧
    rowTotal it = itemTerm it := by
  refine ⟨?_, ?_, ?_, ?_, ?_, rfl⟩
  · simp [itemTerm, parseIntOr1, jsTrunc]
  · simp [itemTerm, parseIntOr1]
  · rw [calcTotals_subtotal]
    simp [itemTerm, parseIntOr1, jsTrunc]
  · simp [calcTotals, orZero]
  · simp [calcTotals, orZero]

/-! ## Validation-error behaviour of updateItem (C5) -/

lemma qkey_ne_pkey (i : Nat) : qkey i ≠ pkey i := by
  intro h
  have hlen := congrArg String.length h
  rw [qkey, pkey, String.length_append, String.length_append] at hlen
  have h9 : "quantity-".length = 9 := rfl
  have h6 : "price-".length = 6 := rfl
  omega

/-- A state whose only validation error is a (live) price error on item 0. -/
def priceErrState : AppState :=
  { baseState with
    items := [{ description := "", quantity := .num 1, price := .num (-3) }]
    errors := insertErr (fun _ => none) (pkey 0) "Price cannot be negative" }

/-- C5 (counterexample): editing the quantity of item 0 to the valid value 5
deletes the `price-0` error entry even though the price field was not edited
(and is still invalid), contradicting a frame of untouched fields. -/
theorem updateItem_deletes_other_key :
    priceErrState.errors (pkey 0) = some "Price cannot be negative" ∧
    (updateItem priceErrState 0 (.quantity (.num 5))).errors (pkey 0) = none := by
  constructor
  · rfl
  · rfl

/-- C5 (amended): `updateItem(idx, field, value)` sets the edited index's
quantity key exactly when the edited field is the quantity and the value is
`< 1`, sets the price key exactly when the edited field is the price and the
value is `< 0`, unconditionally deletes the other keys of that index
(including the error of the *other*, non-edited numeric field), and leaves
keys of all other indices unchanged. -/
theorem updateItem_errors (s : AppState) (idx : Nat) (f : FieldUpdate)
    (h : idx < s.items.length) :
    ((updateItem s idx f).errors (qkey idx)
      = match f with
        | .quantity v => if jsLt v 1 then some "Quantity must be at least 1" else none
        | _ => none) ∧
    ((updateItem s idx f).errors (pkey idx)
      = match f with
        | .price v => if jsLt v 0 then some "Price cannot be negative" else none
        | _ => none) ∧
    (∀ k, k ≠ qkey idx → k ≠ pkey idx → (updateItem s idx f).errors k = s.errors k) := by
  have hqp := qkey_ne_pkey idx
  refine ⟨?_, ?_, ?_⟩
  · rcases f with v | v | v
    · simp [updateItem, insertErr, deleteErr, hqp]
    · cases hv : jsLt v 1 <;>
        simp [updateItem, insertErr, deleteErr, hqp, hv]
    · cases hv : jsLt v 0 <;>
        simp [updateItem, insertErr, deleteErr, hqp, hv]
  · rcases f with v | v | v
    · simp [updateItem, insertErr, deleteErr]
    · cases hv : jsLt v 1 <;>
        simp [updateItem, insertErr, deleteErr, Ne.symm hqp, hv]
    · cases hv : jsLt v 0 <;>
        simp [updateItem, insertErr, deleteErr, hv]
  · intro k hkq hkp
    rcases f with v | v | v
    · simp [updateItem, insertErr, deleteErr, hkq, hkp]
    · cases hv : jsLt v 1 <;>
        simp [updateItem, insertErr, deleteErr, hkq, hkp, hv]
    · cases hv : jsLt v 0 <;>
        simp [updateItem, insertErr, deleteErr, hkq, hkp, hv]

/-- Closed instantiation of `updateItem_errors`: setting quantity 0 on the
single item of the default state raises the quantity error, leaves the price
key empty, and leaves an unrelated key untouched. -/
theorem updateItem_errors_witness :
    ((updateItem baseState 0 (.quantity (.num 0))).errors (qkey 0)
      = some "Quantity must be at least 1") ∧
    ((updateItem baseState 0 (.quantity (.num 0))).errors (pkey 0) = none) ∧
    ((updateItem baseState 0 (.quantity (.num 0))).errors (qkey 1)
      = baseState.errors (qkey 1)) := by
  have h := updateItem_errors baseState 0 (.quantity (.num 0)) (by decide)
  refine ⟨?_, ?_, ?_⟩
  · rw [h.1]
    decide
  · rw [h.2.1]
  · exact h.2.2 (qkey 1) (by decide) (by decide)
/-! ## removeItem (C7) -/

lemma enumFrom_filter_ne_low (l : List Item) (m k : Nat) (hk : k < m) :
    ((List.enumFrom m l).filter (fun p => p.1 ≠ k)).map Prod.snd = l := by
  induction l generalizing m with
  | nil => rfl
  | cons a as ih =>
    have hne : (m ≠ k) := by omega
    rw [List.enumFrom, List.filter_cons, if_pos (by simp [hne]), List.map_cons,
      ih (m + 1) (by omega)]

lemma enumFrom_filter_ne_eraseIdx (l : List Item) (n idx : Nat) :
    ((List.enumFrom n l).filter (fun p => p.1 ≠ n + idx)).map Prod.snd = l.eraseIdx idx := by
  induction l generalizing n idx with
  | nil => rfl
  | cons a as ih =>
    cases idx with
    | zero =>
      rw [List.enumFrom, List.filter_cons, if_neg (by simp)]
      have h0 : (fun p => decide (p.1 ≠ n + 0)) = (fun (p : Nat × Item) => decide (p.1 ≠ n)) := by
        rw [Nat.add_zero]
      rw [h0, enumFrom_filter_ne_low as (n + 1) n (by omega)]
      rfl
    | succ j =>
      rw [List.enumFrom, List.filter_cons,
        if_pos (by simp only [decide_eq_true_eq]; omega), List.map_cons]
      have harg : n + (j + 1) = (n + 1) + j := by omega
      rw [harg, ih (n + 1) j]
      rfl

lemma filterNeIdx_eq_eraseIdx (l : List Item) (idx : Nat) :
    filterNeIdx l idx = l.eraseIdx idx := by
  have h := enumFrom_filter_ne_eraseIdx l 0 idx
  rw [Nat.zero_add] at h
  simpa [filterNeIdx, List.enum] using h

lemma length_eraseIdx_ge (l : List Item) (idx : Nat) :
    l.length - 1 ≤ (l.eraseIdx idx).length := by
  induction l generalizing idx with
  | nil => simp
  | cons a as ih =>
    cases idx with
    | zero => simp [List.eraseIdx]
    | succ j =>
      have := ih j
      simp only [List.eraseIdx, List.length_cons]
      omega

lemma removeItem_eq_of_lt (s : AppState) (idx : Nat) (h : ¬ s.items.length ≤ 1) :
    removeItem s idx =
      { saveHistory s (s.items.eraseIdx idx) s.tax s.discount with
        items := s.items.eraseIdx idx
        errors := deleteErr (deleteErr s.errors (qkey idx)) (pkey idx) } := by
  unfold removeItem
  rw [if_neg h, filterNeIdx_eq_eraseIdx]

/-- C7: `removeItem(idx)` on a single-item list is a complete no-op (state
equality: nothing removed, no history recorded, no error key deleted); it
never empties the items list; with more than one item it removes exactly the
element at `idx`, records history, and deletes exactly this index's
quantity and price error keys. -/
theorem removeItem_spec (s : AppState) (idx : Nat) :
    (s.items.length ≤ 1 → removeItem s idx = s) ∧
    (s.items ≠ [] → (removeItem s idx).items ≠ []) ∧
    (1 < s.items.length →
      (removeItem s idx).items = s.items.eraseIdx idx ∧
      (removeItem s idx).history
        = capHistory (s.history.take (s.historyIndex + 1).toNat
            ++ [{ items := s.items.eraseIdx idx, tax := s.tax, discount := s.discount }]) ∧
      (removeItem s idx).errors (qkey idx) = none ∧
      (removeItem s idx).errors (pkey idx) = none ∧
      (∀ k, k ≠ qkey idx → k ≠ pkey idx → (removeItem s idx).errors k = s.errors k)) := by
  refine ⟨?_, ?_, ?_⟩
  · intro h
    unfold removeItem
    rw [if_pos h]
  · intro hne
    by_cases h : s.items.length ≤ 1
    · unfold removeItem
      rw [if_pos h]
      exact hne
    · rw [removeItem_eq_of_lt s idx h]
      have hlen := length_eraseIdx_ge s.items idx
      intro hcon
      have hc := congrArg List.length hcon
      simp only [List.length_nil] at hc
      have hpos : 0 < s.items.length := by
        cases hs : s.items with
        | nil => exact absurd hs hne
        | cons x xs => simp [hs]
      omega
  · intro h
    have hns : ¬ s.items.length ≤ 1 := by omega
    rw [removeItem_eq_of_lt s idx hns]
    refine ⟨rfl, rfl, ?_, ?_, ?_⟩
    · simp [deleteErr, Ne.symm (qkey_ne_pkey idx)]
    · simp [deleteErr]
    · intro k hkq hkp
      simp [deleteErr, hkq, hkp]

/-- Closed instantiation of `removeItem_spec`: a one-item state is left
untouched, and on a two-item state item 0 is removed with its error keys. -/
theorem removeItem_spec_witness :
    removeItem baseState 0 = baseState ∧
    (removeItem { baseState with items := [emptyItem, emptyItem] } 0).items = [emptyItem] ∧
    (removeItem { baseState with items := [emptyItem, emptyItem] } 0).errors (qkey 0) = none := by
  refine ⟨?_, ?_, ?_⟩
  · exact (removeItem_spec baseState 0).1 (by decide)
  · have h := ((removeItem_spec { baseState with items := [emptyItem, emptyItem] } 0).2.2
      (by decide)).1
    rw [h]
    decide
  · exact ((removeItem_spec { baseState with items := [emptyItem, emptyItem] } 0).2.2
      (by decide)).2.2.1

/-! ## Startup initialization (C3)

The startup `useEffect` reads `data = params.get("data")` (null when the
parameter is absent, possibly `""` when present but empty) and branches on
its JavaScript *truthiness*: a non-empty `data` string is parsed inside
`try/catch` (a failure is logged and the built-in defaults kept). When
`data` is null *or empty*, the durable snapshot `savedDataRaw` is read, and
`savedDataRaw ? JSON.parse(savedDataRaw) : null` again tests truthiness: an
absent or empty stored string yields the defaults, while a non-empty one is
parsed by a `JSON.parse` call sitting *outside* any `try` block.
`JSON.parse` is modelled as an oracle `String → Option InitData`:
`some v` is a successful parse to the (truthy) state record, `none` a throw;
JSON texts denoting bare primitives are outside the model, which the app
never writes. An uncaught throw is `Except.error ()`. -/

/-- The record shape produced by the startup initializer. -/
structure InitData where
  items : List Item
  tax : JsNum
  discount : JsNum
  currency : String
  title : String
  invoiceNumber : String
  date : String
deriving DecidableEq

/-- The built-in default `initialData` (the date is the external "today"). -/
def defaultInitData (today : String) : InitData :=
  { items := [emptyItem], tax := .num 0, discount := .num 0
    currency := "USD", title := "Invoice", invoiceNumber := "INV-001"
    date := today }

/-- JavaScript truthiness of a nullable string: `null` and `""` are falsy,
every other string truthy. -/
def jsTruthyStr (s : Option String) : Bool :=
  s.getD "" ≠ ""

/-- The startup initialization control flow of the `useEffect` at the top of
`App`: `url` is `params.get("data")`, `stored` is
`localStorage.getItem("invoiceData")`, `parse` models `JSON.parse`, and both
branch conditions are the truthiness tests of the code. `Except.error ()`
marks an uncaught exception escaping the effect. -/
def initialData (today : String) (url stored : Option String)
    (parse : String → Option InitData) : Except Unit InitData :=
  if jsTruthyStr url then
    match parse (url.getD "") with
    | some v => .ok v
    | none => .ok (defaultInitData today)
  else if jsTruthyStr stored then
    match parse (stored.getD "") with
    | some v => .ok v
    | none => .error ()
  else .ok (defaultInitData today)

/-- A parse oracle on which every string is malformed. -/
def failingParse : String → Option InitData := fun _ => none

/-- C3 (counterexample): with no `data` URL parameter and a malformed
(non-empty) durable snapshot, the `JSON.parse` exception escapes:
initialization does not fall back to the defaults, contradicting "a parse
failure of either the URL data or the durable local snapshot is caught". -/
theorem initialData_storage_crash :
    initialData "2025-01-01" none (some "not json") failingParse = .error () ∧
    initialData "2025-01-01" none (some "not json") failingParse
      ≠ .ok (defaultInitData "2025-01-01") := by
  refine ⟨rfl, ?_⟩
  intro h
  exact Except.noConfusion h

/-- C3 (amended): a non-empty URL `data` parameter always wins — its parse
failure is caught and yields the built-in defaults and the durable snapshot
is never consulted; an empty `data` parameter behaves exactly like an
absent one (the storage path is taken); on the storage path, a non-empty
durable snapshot is used when it parses but its parse failure escapes
uncaught, while an empty or absent snapshot yields the defaults. -/
theorem initialData_spec (today : String) (stored : Option String)
    (parse : String → Option InitData) :
    (∀ d, d ≠ "" → initialData today (some d) stored parse
      = .ok ((parse d).getD (defaultInitData today))) ∧
    (initialData today (some "") stored parse
      = initialData today none stored parse) ∧
    (∀ raw, raw ≠ "" → initialData today none (some raw) parse
      = match parse raw with
        | some v => Except.ok v
        | none => Except.error ()) ∧
    (initialData today none (some "") parse = .ok (defaultInitData today)) ∧
    initialData today none none parse = .ok (defaultInitData today) := by
  refine ⟨?_, rfl, ?_, rfl, rfl⟩
  · intro d hd
    have ht : jsTruthyStr (some d) = true := by simp [jsTruthyStr, hd]
    simp only [initialData, ht, if_true, Option.getD_some]
    cases parse d <;> rfl
  · intro raw hr
    have ht : jsTruthyStr (some raw) = true := by simp [jsTruthyStr, hr]
    simp only [initialData, ht, if_true, Option.getD_some]
    rfl

/-- Closed instantiation of `initialData_spec`: a non-empty URL payload that
fails to parse yields the defaults regardless of storage, an empty payload
defers to the storage path, and a non-empty malformed snapshot escapes. -/
theorem initialData_spec_witness :
    initialData "2025-01-01" (some "x") (some "y") failingParse
      = .ok (defaultInitData "2025-01-01") ∧
    initialData "2025-01-01" (some "") none failingParse
      = initialData "2025-01-01" none none failingParse ∧
    initialData "2025-01-01" none (some "z") failingParse = .error () := by
  refine ⟨?_, ?_, ?_⟩
  · have h := (initialData_spec "2025-01-01" (some "y") failingParse).1 "x" (by decide)
    rw [h]
    rfl
  · exact (initialData_spec "2025-01-01" none failingParse).2.1
  · have h := (initialData_spec "2025-01-01" (some "irrelevant") failingParse).2.2.1
      "z" (by decide)
    rw [h]
    rfl
